import Mathlib

set_option autoImplicit false

/-!
Shallow embedding of the `StateManager` class of the stickler repository
(the action-queue FSM runner), together with a small-step event-loop
semantics that makes the deferred `setTimeout` scheduling and handler
suspension points explicit, and theorems settling the specification
claims about it.
-/

namespace Stickler

/-- Lifecycle status of the state manager (the `StateManagerStatus` enum:
STOPPED, RUNNING, STOP_PENDING). -/
inductive Status where
  | stopped
  | running
  | stopPending
  deriving DecidableEq

/-- Behaviour of one transition handler invocation on a given payload.
A handler (`Transition<D, S> = (data: D) => S | Promise<S>`) either returns a
state synchronously, throws synchronously, returns a promise that will later
fulfill with a state, or returns a promise that will later reject. -/
inductive HandlerSpec (S : Type) where
  | now (s : S)
  | fail
  | later (s : S)
  | laterFail
  deriving DecidableEq

/-- One buffered entry of `actionQueue`: the `{ action, data }` record. -/
structure QueuedAction (A D : Type) where
  action : A
  data : D
  deriving DecidableEq

/-- The transition table (`StateMap<S, A>`): for each state, a partial map
from actions to transition handlers; a handler maps its payload to the
behaviour of that invocation. -/
def StateMap (S A D : Type) : Type := S → A → Option (D → HandlerSpec S)

/-- The settlement already determined for a suspended handler invocation: its
promise will either fulfill with the state the handler produced or reject. -/
inductive Pending (S : Type) where
  | fulfill (s : S)
  | reject
  deriving DecidableEq

/-- A snapshot of one `StateManager` instance plus the event-loop bookkeeping
a small-step semantics needs: `pendingTicks` counts `setTimeout` callbacks
scheduled but not yet run; `inflight` lists suspended handler invocations
(promise id paired with the settlement the handler will deliver);
`resolvedStops` lists the ids of the stop callbacks that have been invoked;
`nextStopId` and `nextPromiseId` are fresh-id counters for stop callbacks and
handler promises. -/
structure Config (S A D : Type) where
  currentState : S
  actionQueue : List (QueuedAction A D)
  status : Status
  stopCallback : Option Nat
  queuedProcessing : Bool
  pendingTicks : Nat
  inflight : List (Nat × Pending S)
  resolvedStops : List Nat
  nextStopId : Nat
  nextPromiseId : Nat
  deriving DecidableEq

variable {S A D : Type}

/-- `queueProcessing` (source lines 115-148): if `queuedProcessing` is set,
return without scheduling; otherwise schedule one more deferred tick via
`setTimeout`. The source discards the handle returned by `setTimeout`
(line 124 has no assignment back to `this.queuedProcessing`), so scheduling
leaves the `queuedProcessing` field unchanged. -/
def queueProcessing (c : Config S A D) : Config S A D :=
  if c.queuedProcessing then c
  else { c with pendingTicks := c.pendingTicks + 1 }

/-- `pushAction(action, data)` (source lines 66-71): unconditionally append
`{ action, data }` to the queue; if the status is RUNNING, also arm the
deferred processing step. -/
def pushAction (c : Config S A D) (a : A) (d : D) : Config S A D :=
  let c1 := { c with actionQueue := c.actionQueue ++ [QueuedAction.mk a d] }
  if c1.status = Status.running then queueProcessing c1 else c1

/-- `start()` (source lines 74-79): if the status is STOPPED, set it to
RUNNING and arm the deferred processing step; otherwise do nothing. -/
def start (c : Config S A D) : Config S A D :=
  if c.status = Status.stopped then
    queueProcessing { c with status := Status.running }
  else c

/-- `stop()` (source lines 86-92): set the status to STOP_PENDING, store the
new promise's resolver as `stopCallback` (overwriting any previous one), and
arm the deferred processing step. The resolver is modelled as a fresh id. -/
def stop (c : Config S A D) : Config S A D :=
  queueProcessing
    { c with
      status := Status.stopPending
      stopCallback := some c.nextStopId
      nextStopId := c.nextStopId + 1 }

/-- The tail of the tick callback (source lines 138-146): if the queue is
empty, return; otherwise call `queueProcessing` again. -/
def rearm (c : Config S A D) : Config S A D :=
  if c.actionQueue.isEmpty then c else queueProcessing c

/-- The body of the scheduled `setTimeout` callback (source lines 124-147),
run when the event loop fires one scheduled tick, fused with `process()`
(source lines 95-109), which it awaits. It runs atomically up to completion
or up to the first suspension inside a transition handler: clear
`queuedProcessing`; if the status is STOP_PENDING, set it to STOPPED, invoke
and clear the stop callback, and return; otherwise shift the head action (if
any), look up the handler for (current state, action), discard the action if
no handler is registered, and otherwise invoke the handler: a synchronous
return commits the new state at once, a synchronous throw propagates out of
the tick (skipping the re-arm check), and a suspension records an in-flight
invocation whose settlement happens in a later `settle` step. -/
def tick (states : StateMap S A D) (c0 : Config S A D) : Config S A D :=
  let c := { c0 with pendingTicks := c0.pendingTicks - 1, queuedProcessing := false }
  if c.status = Status.stopPending then
    { c with
      status := Status.stopped
      resolvedStops := c.resolvedStops ++ c.stopCallback.toList
      stopCallback := none }
  else
    match c.actionQueue with
    | [] => c
    | qa :: rest =>
      let c1 := { c with actionQueue := rest }
      match states c1.currentState qa.action with
      | none => rearm c1
      | some f =>
        match f qa.data with
        | HandlerSpec.now s => rearm { c1 with currentState := s }
        | HandlerSpec.fail => c1
        | HandlerSpec.later s =>
          { c1 with
            inflight := c1.inflight ++ [(c1.nextPromiseId, Pending.fulfill s)]
            nextPromiseId := c1.nextPromiseId + 1 }
        | HandlerSpec.laterFail =>
          { c1 with
            inflight := c1.inflight ++ [(c1.nextPromiseId, Pending.reject)]
            nextPromiseId := c1.nextPromiseId + 1 }

/-- The promise of in-flight handler invocation `i` settles. On fulfillment
the assignment `this.currentState = await transition(action.data)` (source
line 108) commits and the suspended tick resumes with its re-arm check
(source lines 138-146); on rejection the exception propagates out of the
tick and nothing further runs in it. -/
def settle (c : Config S A D) (i : Nat) : Option (Config S A D) :=
  match c.inflight.lookup i with
  | none => none
  | some (Pending.fulfill s) =>
    some (rearm
      { c with
        currentState := s
        inflight := c.inflight.filter (fun p => p.1 != i) })
  | some Pending.reject =>
    some { c with inflight := c.inflight.filter (fun p => p.1 != i) }

/-- An atomic step of the event loop: one public method call running to
completion, one scheduled tick firing, or one in-flight handler promise
settling. -/
inductive Event (A D : Type) where
  | push (a : A) (d : D)
  | start
  | stop
  | tick
  | settle (i : Nat)
  deriving DecidableEq

/-- The step function of the semantics: `Event.tick` is enabled only when a
`setTimeout` callback is actually scheduled, and `Event.settle i` only when
promise `i` is in flight. -/
def step (states : StateMap S A D) (c : Config S A D) : Event A D → Option (Config S A D)
  | Event.push a d => some (pushAction c a d)
  | Event.start => some (start c)
  | Event.stop => some (stop c)
  | Event.tick => if c.pendingTicks = 0 then none else some (tick states c)
  | Event.settle i => settle c i

/-- Run a sequence of events from a configuration. -/
def run (states : StateMap S A D) (c : Config S A D) : List (Event A D) → Option (Config S A D)
  | [] => some c
  | e :: es =>
    match step states c e with
    | none => none
    | some c2 => run states c2 es

/-- The configuration produced by the constructor (source lines 55-58):
initial state, empty queue, status STOPPED, no stop callback, nothing
scheduled, nothing in flight. -/
def init (s0 : S) : Config S A D :=
  { currentState := s0
    actionQueue := []
    status := Status.stopped
    stopCallback := none
    queuedProcessing := false
    pendingTicks := 0
    inflight := []
    resolvedStops := []
    nextStopId := 0
    nextPromiseId := 0 }

/-- Reachability from the freshly constructed configuration under the step
semantics. -/
inductive Reach (states : StateMap S A D) (s0 : S) : Config S A D → Prop where
  | refl : Reach states s0 (init s0)
  | next {c c2 : Config S A D} {e : Event A D} :
      Reach states s0 c → step states c e = some c2 → Reach states s0 c2

/-- Sequential reference semantics of queue draining, following the
specification text: apply each queued action's handler in push order,
adopting the state it produces (for a suspending handler, the state its
promise fulfills with) before looking up the next action's handler; actions
with no registered handler are skipped with the state unchanged. -/
def seqApply (states : StateMap S A D) : S → List (QueuedAction A D) → S
  | s, [] => s
  | s, qa :: rest =>
    match states s qa.action with
    | none => seqApply states s rest
    | some f =>
      match f qa.data with
      | HandlerSpec.now s2 => seqApply states s2 rest
      | HandlerSpec.later s2 => seqApply states s2 rest
      | HandlerSpec.fail => seqApply states s rest
      | HandlerSpec.laterFail => seqApply states s rest

/-- The status changes the specification's lifecycle invariant lists:
Stopped to Running, Running to StopPending, and StopPending to Stopped. -/
def claimedEdge : Status → Status → Bool
  | Status.stopped, Status.running => true
  | Status.running, Status.stopPending => true
  | Status.stopPending, Status.stopped => true
  | _, _ => false

/-- The amended set of status changes: the claimed ones plus the change from
Stopped to StopPending made by calling stop while already Stopped. -/
def statusEdge : Status → Status → Bool
  | Status.stopped, Status.stopPending => true
  | s, s2 => claimedEdge s s2

/-- Concrete table with two suspending handlers registered in state 1 (action
1 fulfilling state 2, action 2 fulfilling state 3) and a synchronous handler
for action 2 in state 2 returning state 4. -/
def tableTwoAsync : StateMap Nat Nat Nat := fun s a =>
  match s, a with
  | 1, 1 => some (fun _ => HandlerSpec.later 2)
  | 1, 2 => some (fun _ => HandlerSpec.later 3)
  | 2, 2 => some (fun _ => HandlerSpec.now 4)
  | _, _ => none

/-- Concrete table with no handler registered anywhere. -/
def tableEmpty : StateMap Nat Nat Nat := fun _ _ => none

/-- Concrete table with one synchronous handler: state 1, action 1, next
state 2. -/
def tableOneSync : StateMap Nat Nat Nat := fun s a =>
  match s, a with
  | 1, 1 => some (fun _ => HandlerSpec.now 2)
  | _, _ => none

/-- Concrete table whose only handler (state 1, action 1) throws
synchronously. -/
def tableOneFail : StateMap Nat Nat Nat := fun s a =>
  match s, a with
  | 1, 1 => some (fun _ => HandlerSpec.fail)
  | _, _ => none

/-- Concrete configuration with a pending stop and one scheduled tick, as
left by calling stop on a fresh instance. -/
def cStopPendingEx : Config Nat Nat Nat :=
  { currentState := 1
    actionQueue := []
    status := Status.stopPending
    stopCallback := some 0
    queuedProcessing := false
    pendingTicks := 1
    inflight := []
    resolvedStops := []
    nextStopId := 1
    nextPromiseId := 0 }

/-- Concrete running configuration with one queued action and one scheduled
tick. -/
def cQueuedEx : Config Nat Nat Nat :=
  { currentState := 1
    actionQueue := [QueuedAction.mk 1 0]
    status := Status.running
    stopCallback := none
    queuedProcessing := false
    pendingTicks := 1
    inflight := []
    resolvedStops := []
    nextStopId := 0
    nextPromiseId := 0 }

/-- Concrete running configuration with one queued action carrying action
kind 5, for which no handler is registered. -/
def cUnregisteredEx : Config Nat Nat Nat :=
  { cQueuedEx with actionQueue := [QueuedAction.mk 5 0] }

/-- Concrete running configuration with one in-flight handler invocation
whose promise will reject. -/
def cRejectEx : Config Nat Nat Nat :=
  { currentState := 1
    actionQueue := []
    status := Status.running
    stopCallback := none
    queuedProcessing := false
    pendingTicks := 0
    inflight := [(0, Pending.reject)]
    resolvedStops := []
    nextStopId := 0
    nextPromiseId := 1 }

theorem queueProcessing_currentState (c : Config S A D) :
    (queueProcessing c).currentState = c.currentState := by
  unfold queueProcessing; split <;> rfl

theorem queueProcessing_actionQueue (c : Config S A D) :
    (queueProcessing c).actionQueue = c.actionQueue := by
  unfold queueProcessing; split <;> rfl

theorem queueProcessing_status (c : Config S A D) :
    (queueProcessing c).status = c.status := by
  unfold queueProcessing; split <;> rfl

theorem queueProcessing_stopCallback (c : Config S A D) :
    (queueProcessing c).stopCallback = c.stopCallback := by
  unfold queueProcessing; split <;> rfl

theorem queueProcessing_inflight (c : Config S A D) :
    (queueProcessing c).inflight = c.inflight := by
  unfold queueProcessing; split <;> rfl

theorem queueProcessing_resolvedStops (c : Config S A D) :
    (queueProcessing c).resolvedStops = c.resolvedStops := by
  unfold queueProcessing; split <;> rfl

attribute [simp] queueProcessing_currentState queueProcessing_actionQueue
  queueProcessing_status queueProcessing_stopCallback queueProcessing_inflight
  queueProcessing_resolvedStops

theorem rearm_currentState (c : Config S A D) :
    (rearm c).currentState = c.currentState := by
  unfold rearm; split <;> simp

theorem rearm_actionQueue (c : Config S A D) :
    (rearm c).actionQueue = c.actionQueue := by
  unfold rearm; split <;> simp

theorem rearm_status (c : Config S A D) : (rearm c).status = c.status := by
  unfold rearm; split <;> simp

theorem rearm_stopCallback (c : Config S A D) :
    (rearm c).stopCallback = c.stopCallback := by
  unfold rearm; split <;> simp

theorem rearm_inflight (c : Config S A D) :
    (rearm c).inflight = c.inflight := by
  unfold rearm; split <;> simp

theorem rearm_resolvedStops (c : Config S A D) :
    (rearm c).resolvedStops = c.resolvedStops := by
  unfold rearm; split <;> simp

attribute [simp] rearm_currentState rearm_actionQueue rearm_status
  rearm_stopCallback rearm_inflight rearm_resolvedStops

theorem pushAction_status (c : Config S A D) (a : A) (d : D) :
    (pushAction c a d).status = c.status := by
  simp only [pushAction]
  split <;> simp

theorem pushAction_stopCallback (c : Config S A D) (a : A) (d : D) :
    (pushAction c a d).stopCallback = c.stopCallback := by
  simp only [pushAction]
  split <;> simp

theorem tick_preserves_of_ne (states : StateMap S A D) (c : Config S A D)
    (h : c.status ≠ Status.stopPending) :
    (tick states c).status = c.status ∧
    (tick states c).stopCallback = c.stopCallback := by
  obtain ⟨cs, q, st, cb, qp, pt, inf, rs, ns, np⟩ := c
  simp only [tick]
  simp only at h ⊢
  rw [if_neg h]
  cases q with
  | nil => exact ⟨rfl, rfl⟩
  | cons qa rest =>
    rcases hT : states cs qa.action with _ | f
    · simp [hT]
    · rcases hD : f qa.data with s2 | _ | s2 | _ <;> simp [hT, hD]

theorem settle_preserves (c : Config S A D) (i : Nat) (c' : Config S A D)
    (h : settle c i = some c') :
    c'.status = c.status ∧ c'.stopCallback = c.stopCallback := by
  unfold settle at h
  split at h
  · simp at h
  · injection h with h
    subst h
    simp
  · injection h with h
    subst h
    exact ⟨rfl, rfl⟩

theorem stepPreservesStopInvariant (states : StateMap S A D)
    (c c' : Config S A D) (e : Event A D) (h : step states c e = some c')
    (ih : c.status = Status.stopPending → c.stopCallback.isSome = true)
    (hs : c'.status = Status.stopPending) : c'.stopCallback.isSome = true := by
  cases e with
  | push a d =>
    simp only [step] at h
    injection h with h
    subst h
    rw [pushAction_stopCallback]
    exact ih (by rw [← pushAction_status c a d]; exact hs)
  | start =>
    simp only [step] at h
    injection h with h
    subst h
    by_cases hcs : c.status = Status.stopped
    · simp [start, hcs] at hs
    · simp [start, hcs] at hs ⊢
      exact ih hs
  | stop =>
    simp only [step] at h
    injection h with h
    subst h
    simp [stop]
  | tick =>
    simp only [step] at h
    split at h
    · simp at h
    · injection h with h
      subst h
      by_cases hcs : c.status = Status.stopPending
      · simp [tick, hcs] at hs
      · rw [(tick_preserves_of_ne states c hcs).1] at hs
        exact absurd hs hcs
  | settle i =>
    simp only [step] at h
    rw [(settle_preserves c i c' h).2]
    exact ih (by rw [← (settle_preserves c i c' h).1]; exact hs)

/-- C5: when a scheduled processing step executes while the status is
StopPending, it sets the status to Stopped, invokes and clears the stored
stop callback, and processes no queued action on that tick even if the
queue is non-empty: the action queue, the current state and the in-flight
set are all unchanged, so the buffered actions remain available for a
future start. -/
theorem C5_stop_pending_tick_stops_without_processing
    (states : StateMap S A D) (c c' : Config S A D)
    (h : step states c Event.tick = some c')
    (hs : c.status = Status.stopPending) :
    c'.status = Status.stopped ∧ c'.stopCallback = none ∧
    c'.resolvedStops = c.resolvedStops ++ c.stopCallback.toList ∧
    c'.actionQueue = c.actionQueue ∧
    c'.currentState = c.currentState ∧
    c'.inflight = c.inflight := by
  simp only [step] at h
  split at h
  · simp at h
  · injection h with h
    subst h
    simp [tick, hs]

/-- Witness for C5 at the concrete configuration left by calling stop on a
fresh instance. -/
theorem C5_stop_pending_tick_stops_without_processing_witness :
    (tick tableEmpty cStopPendingEx).status = Status.stopped ∧
    (tick tableEmpty cStopPendingEx).stopCallback = none ∧
    (tick tableEmpty cStopPendingEx).resolvedStops =
      cStopPendingEx.resolvedStops ++ cStopPendingEx.stopCallback.toList ∧
    (tick tableEmpty cStopPendingEx).actionQueue = cStopPendingEx.actionQueue ∧
    (tick tableEmpty cStopPendingEx).currentState = cStopPendingEx.currentState ∧
    (tick tableEmpty cStopPendingEx).inflight = cStopPendingEx.inflight :=
  C5_stop_pending_tick_stops_without_processing tableEmpty cStopPendingEx
    (tick tableEmpty cStopPendingEx) (by decide) (by decide)

/-- C6: a dequeued action whose (current state, action kind) pair has no
registered handler is discarded with no error: the current state is
unchanged, no handler invocation starts, and the action is removed from the
queue and retained nowhere. -/
theorem C6_unregistered_action_silently_discarded
    (states : StateMap S A D) (c c' : Config S A D)
    (qa : QueuedAction A D) (rest : List (QueuedAction A D))
    (h : step states c Event.tick = some c')
    (hs : c.status ≠ Status.stopPending)
    (hq : c.actionQueue = qa :: rest)
    (hT : states c.currentState qa.action = none) :
    c'.currentState = c.currentState ∧ c'.actionQueue = rest ∧
    c'.inflight = c.inflight ∧ c'.status = c.status ∧
    c'.resolvedStops = c.resolvedStops := by
  simp only [step] at h
  split at h
  · simp at h
  · injection h with h
    subst h
    simp [tick, hq, hT, hs]

/-- Witness for C6 at a concrete running configuration holding one queued
action of a kind with no handler in the current state. -/
theorem C6_unregistered_action_silently_discarded_witness :
    (tick tableOneSync cUnregisteredEx).currentState =
      cUnregisteredEx.currentState ∧
    (tick tableOneSync cUnregisteredEx).actionQueue = [] ∧
    (tick tableOneSync cUnregisteredEx).inflight = cUnregisteredEx.inflight ∧
    (tick tableOneSync cUnregisteredEx).status = cUnregisteredEx.status ∧
    (tick tableOneSync cUnregisteredEx).resolvedStops =
      cUnregisteredEx.resolvedStops :=
  C6_unregistered_action_silently_discarded tableOneSync cUnregisteredEx
    (tick tableOneSync cUnregisteredEx) (QueuedAction.mk 5 0) []
    (by decide) (by decide) (by decide) rfl

/-- C9: a transition handler that throws synchronously, or whose suspension
rejects, leaves the current state as the last committed state (the
assignment of the handler's result never takes place), and the failed
action is not retried: it was already removed from the queue, nothing is
re-queued, and because the exception propagates past the re-arm check the
tick schedules no further processing step. -/
theorem C9_failed_handler_leaves_state_and_is_not_retried
    (states : StateMap S A D) (c c' : Config S A D) :
    (∀ (qa : QueuedAction A D) (rest : List (QueuedAction A D))
        (f : D → HandlerSpec S),
      step states c Event.tick = some c' → c.status ≠ Status.stopPending →
      c.actionQueue = qa :: rest → states c.currentState qa.action = some f →
      f qa.data = HandlerSpec.fail →
      c'.currentState = c.currentState ∧ c'.actionQueue = rest ∧
      c'.inflight = c.inflight ∧ c'.status = c.status ∧
      c'.pendingTicks = c.pendingTicks - 1) ∧
    (∀ i : Nat,
      step states c (Event.settle i) = some c' →
      c.inflight.lookup i = some Pending.reject →
      c'.currentState = c.currentState ∧ c'.actionQueue = c.actionQueue ∧
      c'.status = c.status ∧ c'.pendingTicks = c.pendingTicks ∧
      c'.inflight = c.inflight.filter fun p => p.1 != i) := by
  constructor
  · intro qa rest f h hsp hq hT hf
    simp only [step] at h
    split at h
    · simp at h
    · injection h with h
      subst h
      simp [tick, hq, hT, hf, hsp]
  · intro i h hl
    simp only [step, settle, hl] at h
    injection h with h
    subst h
    exact ⟨rfl, rfl, rfl, rfl, rfl⟩

/-- Witness for C9: a synchronously throwing handler at a concrete running
configuration, and a rejecting in-flight suspension at another. -/
theorem C9_failed_handler_leaves_state_and_is_not_retried_witness :
    ((tick tableOneFail cQueuedEx).currentState = cQueuedEx.currentState ∧
     (tick tableOneFail cQueuedEx).actionQueue = [] ∧
     (tick tableOneFail cQueuedEx).inflight = cQueuedEx.inflight ∧
     (tick tableOneFail cQueuedEx).status = cQueuedEx.status ∧
     (tick tableOneFail cQueuedEx).pendingTicks = cQueuedEx.pendingTicks - 1) ∧
    (({ cRejectEx with inflight := [] } : Config Nat Nat Nat).currentState =
        cRejectEx.currentState ∧
     ({ cRejectEx with inflight := [] } : Config Nat Nat Nat).actionQueue =
        cRejectEx.actionQueue ∧
     ({ cRejectEx with inflight := [] } : Config Nat Nat Nat).status =
        cRejectEx.status ∧
     ({ cRejectEx with inflight := [] } : Config Nat Nat Nat).pendingTicks =
        cRejectEx.pendingTicks ∧
     ({ cRejectEx with inflight := [] } : Config Nat Nat Nat).inflight =
        cRejectEx.inflight.filter fun p => p.1 != 0) :=
  ⟨(C9_failed_handler_leaves_state_and_is_not_retried tableOneFail cQueuedEx
      (tick tableOneFail cQueuedEx)).1 (QueuedAction.mk 1 0) []
      (fun _ => HandlerSpec.fail) (by decide) (by decide) (by decide) rfl rfl,
   (C9_failed_handler_leaves_state_and_is_not_retried tableEmpty cRejectEx
      { cRejectEx with inflight := [] }).2 0 (by decide) (by decide)⟩

/-- C10: in every reachable configuration, status STOP_PENDING implies the
stored stop callback is present, so the non-null assertion at the
`stopCallback` call site in the scheduled tick never dereferences an
undefined value. -/
theorem C10_stop_pending_implies_callback_present
    (states : StateMap S A D) (s0 : S) (c : Config S A D)
    (hr : Reach states s0 c) (hs : c.status = Status.stopPending) :
    c.stopCallback.isSome = true := by
  revert hs
  induction hr with
  | refl =>
    intro hs
    simp [init] at hs
  | next hr2 hstep ih =>
    intro hs
    exact stepPreservesStopInvariant states _ _ _ hstep ih hs

/-- Witness for C10 at the reachable configuration produced by calling stop
on a fresh instance. -/
theorem C10_stop_pending_implies_callback_present_witness :
    ((stop (init 1 : Config Nat Nat Nat)).stopCallback).isSome = true :=
  C10_stop_pending_implies_callback_present tableEmpty 1 (stop (init 1))
    (Reach.next Reach.refl
      (by decide : step tableEmpty (init 1) Event.stop = some (stop (init 1))))
    (by decide)

/-- C1: the code violates the FIFO-composition guarantee. With handlers for
actions 1 and 2 suspending in state 1, pushing 1 then 2 while running
schedules two independent ticks (the setTimeout handle is never stored on
`queuedProcessing`, so each arm schedules a fresh tick); both ticks fire
before either promise settles, so action 2's handler is looked up and
invoked from state 1 before action 1's result is adopted. Even with the
promises settling in push order the final state is 3, while applying
action 1's handler and then action 2's handler sequentially, as the claim
requires, reaches state 4. -/
theorem C1_async_handlers_break_fifo_composition :
    (run tableTwoAsync (init 1)
        [Event.start, Event.push 1 0, Event.push 2 0, Event.tick, Event.tick,
         Event.settle 0, Event.settle 1]).map Config.currentState = some 3 ∧
    seqApply tableTwoAsync 1 [QueuedAction.mk 1 0, QueuedAction.mk 2 0] = 4 := by
  decide

/-- C2: the code violates both halves of the claim. After start and a single
push while running there are already two outstanding scheduled processing
steps (arming is not idempotent, because the setTimeout handle is never
assigned to `queuedProcessing`), and after two pushes of suspending
handlers and two ticks there are two handler invocations simultaneously in
flight: the second began before the first completed. -/
theorem C2_multiple_ticks_and_overlapping_handlers :
    (run tableTwoAsync (init 1) [Event.start, Event.push 1 0]).map
        Config.pendingTicks = some 2 ∧
    (run tableTwoAsync (init 1)
        [Event.start, Event.push 1 0, Event.push 2 0, Event.tick,
         Event.tick]).map (fun c => c.inflight.length) = some 2 := by
  decide

/-- C3: the code drops the first stop callback. Calling stop twice before
any tick runs overwrites `stopCallback` (id 0) with the second resolver
(id 1); the StopPending tick then invokes only id 1, and after all
scheduled ticks have drained, id 0 was never invoked, the callback slot is
empty, and nothing is pending that could ever invoke it. -/
theorem C3_second_stop_drops_first_callback :
    run tableEmpty (init 1) [Event.stop, Event.stop, Event.tick, Event.tick] =
      some { currentState := 1
             actionQueue := []
             status := Status.stopped
             stopCallback := none
             queuedProcessing := false
             pendingTicks := 0
             inflight := []
             resolvedStops := [1]
             nextStopId := 2
             nextPromiseId := 0 } := by
  decide

/-- C4: the code resolves a stop while a handler is still suspended. With
action 1's handler suspended in flight, stop schedules a tick that fires
during the suspension: the stop callback (id 0) is invoked while the
current state is still 1 (the handler's result 2 not yet adopted) and the
invocation is still in flight; only a later settlement commits state 2,
after the stop already resolved. -/
theorem C4_stop_resolves_before_inflight_handler_commits :
    (run tableTwoAsync (init 1)
        [Event.start, Event.push 1 0, Event.tick, Event.stop, Event.tick]).map
        (fun c => (c.resolvedStops, c.currentState, c.inflight.length)) =
      some ([0], 1, 1) ∧
    (run tableTwoAsync (init 1)
        [Event.start, Event.push 1 0, Event.tick, Event.stop, Event.tick,
         Event.settle 0]).map (fun c => (c.currentState, c.status)) =
      some (2, Status.stopped) := by
  decide

/-- C7: the code processes an action pushed while Stopped without any start.
Two stop calls schedule two ticks; the first tick moves the machine to
Stopped, an action is then pushed while Stopped (so pushing itself arms
nothing), and the leftover second tick runs `process()` anyway: the
handler fires and the current state changes to 2 although start was never
called. -/
theorem C7_action_processed_while_stopped_without_start :
    (run tableOneSync (init 1)
        [Event.stop, Event.stop, Event.tick, Event.push 1 0, Event.tick]).map
        (fun c => (c.currentState, c.status)) = some (2, Status.stopped) := by
  decide

/-- C8 counterexample: stop called on a freshly constructed (hence Stopped)
instance changes the status from Stopped to StopPending, a change that is
not among the three transitions the claim lists. -/
theorem C8_stop_while_stopped_escapes_claimed_edges :
    step tableEmpty (init 1 : Config Nat Nat Nat) Event.stop =
        some (stop (init 1)) ∧
    (init 1 : Config Nat Nat Nat).status = Status.stopped ∧
    (stop (init 1 : Config Nat Nat Nat)).status = Status.stopPending ∧
    claimedEdge Status.stopped Status.stopPending = false := by
  decide

/-- C8 amended: along every step of the semantics the status either stays
the same or changes along one of the edges Stopped to Running (start),
Running to StopPending (stop), StopPending to Stopped (the pending stop
honored by a tick), or Stopped to StopPending (stop called while already
Stopped); moreover start called while the status is not Stopped leaves the
whole configuration unchanged. -/
theorem C8_status_changes_along_amended_edges
    (states : StateMap S A D) (c c' : Config S A D) (e : Event A D)
    (h : step states c e = some c') :
    (c'.status = c.status ∨ statusEdge c.status c'.status = true) ∧
    (e = Event.start → c.status ≠ Status.stopped → c' = c) := by
  cases e with
  | push a d =>
    simp only [step] at h
    injection h with h
    subst h
    exact ⟨Or.inl (pushAction_status c a d), fun he => Event.noConfusion he⟩
  | start =>
    simp only [step] at h
    injection h with h
    subst h
    by_cases hcs : c.status = Status.stopped
    · refine ⟨Or.inr ?_, fun _ hne => absurd hcs hne⟩
      have h1 : (start c).status = Status.running := by simp [start, hcs]
      rw [h1, hcs]
      rfl
    · refine ⟨Or.inl ?_, fun _ _ => ?_⟩ <;> simp [start, hcs]
  | stop =>
    simp only [step] at h
    injection h with h
    subst h
    have h1 : (stop c).status = Status.stopPending := by simp [stop]
    refine ⟨?_, fun he => Event.noConfusion he⟩
    rcases hcs : c.status with _ | _ | _ <;> rw [h1]
    · exact Or.inr rfl
    · exact Or.inr rfl
    · exact Or.inl rfl
  | tick =>
    simp only [step] at h
    split at h
    · simp at h
    · injection h with h
      subst h
      refine ⟨?_, fun he => Event.noConfusion he⟩
      by_cases hcs : c.status = Status.stopPending
      · have h1 : (tick states c).status = Status.stopped := by
          simp [tick, hcs]
        rw [h1, hcs]
        exact Or.inr rfl
      · exact Or.inl (tick_preserves_of_ne states c hcs).1
  | settle i =>
    simp only [step] at h
    exact ⟨Or.inl (settle_preserves c i c' h).1, fun he => Event.noConfusion he⟩

/-- Witness for the amended C8 at the concrete step from the freshly
constructed configuration under the stop event. -/
theorem C8_status_changes_along_amended_edges_witness :
    ((stop (init 1 : Config Nat Nat Nat)).status =
        (init 1 : Config Nat Nat Nat).status ∨
      statusEdge (init 1 : Config Nat Nat Nat).status
        (stop (init 1 : Config Nat Nat Nat)).status = true) ∧
    ((Event.stop : Event Nat Nat) = Event.start →
      (init 1 : Config Nat Nat Nat).status ≠ Status.stopped →
      stop (init 1 : Config Nat Nat Nat) = init 1) :=
  C8_status_changes_along_amended_edges tableEmpty (init 1) (stop (init 1))
    Event.stop (by decide)

end Stickler
